import Mathlib

/-!
Verification of the `DataBuffer` experience-replay ring buffer from
`rls/memories/er_buffer.py`.

The buffer stores, for each (top-level key, nested field) pair, a numpy
array of shape `[max_horizon, n_copys, *field_dims]`.  We flatten the
nested key/field paths into one abstract index type `κ` (the nested
`Data.nested_dict` / `Data.from_nested_dict` round trip is pure
re-nesting of the same flat field map).  A field's storage is modelled as
a function `slot → copy → Option α`, where `none` models a cell of an
`np.empty` allocation that has never been written, and `α` abstracts a
per-copy sub-array of the field.

Integer arithmetic on indices uses `Int` with `%` (`Int.emod`), which for
a positive modulus agrees with Python's / numpy's `%` on negative
operands.

`np.random.randint(low, high, B)` is treated parametrically: the sampling
functions take the drawn values as arguments, and theorems quantify over
all draws in the half-open interval `[low, high)` that `randint` can
produce.
-/

namespace RLs

/-- State of `DataBuffer` (constructor fields plus the mutable state
`_buffer`, `_horizon_length`, `_pointer`).  `allocated f` records whether
field `f` is already a key of the nested `_buffer` dict; `buffer f i c`
is the stored cell at time slot `i`, copy `c` of field `f`. -/
structure DataBuffer (κ α : Type) where
  n_copys : Nat
  batch_size : Nat
  buffer_size : Nat
  time_step : Nat
  allocated : κ → Bool
  buffer : κ → Nat → Nat → Option α
  horizon_length : Nat
  pointer : Nat

/-- The derived `self.max_horizon = buffer_size // n_copys` (computed in `__init__`;
both operands never change afterwards). -/
def DataBuffer.max_horizon {κ α : Type} (b : DataBuffer κ α) : Nat :=
  b.buffer_size / b.n_copys

/-- A freshly constructed `DataBuffer`: empty `_buffer` dict,
`_horizon_length = 0`, `_pointer = 0`. -/
def DataBuffer.init (κ α : Type) (n_copys batch_size buffer_size time_step : Nat) :
    DataBuffer κ α :=
  { n_copys := n_copys
    batch_size := batch_size
    buffer_size := buffer_size
    time_step := time_step
    allocated := fun _ => false
    buffer := fun _ _ _ => none
    horizon_length := 0
    pointer := 0 }

/-- The `DataBuffer.add` method: for each field `f` present in the incoming data
(`fields f = true`), lazily allocate `np.empty((max_horizon,) + _v.shape)`
(all cells `none`) when the field is new, then write the whole row at
slot `_pointer` (every copy `c` receives `vals f c`).  Afterwards advance
`_pointer` by one modulo `max_horizon` and bump `_horizon_length`, capped
at `max_horizon`. -/
def DataBuffer.add {κ α : Type} (b : DataBuffer κ α)
    (fields : κ → Bool) (vals : κ → Nat → α) : DataBuffer κ α :=
  { b with
    allocated := fun f => b.allocated f || fields f
    buffer := fun f i c =>
      if fields f then
        if i = b.pointer then some (vals f c)
        else if b.allocated f then b.buffer f i c else none
      else b.buffer f i c
    pointer := (b.pointer + 1) % b.max_horizon
    horizon_length := min (b.horizon_length + 1) b.max_horizon }

/-- Iterate `add` over a list of calls (each call carries its field set
and its values). -/
def DataBuffer.addSeq {κ α : Type} (b : DataBuffer κ α) :
    List ((κ → Bool) × (κ → Nat → α)) → DataBuffer κ α
  | [] => b
  | d :: ds => (b.add d.1 d.2).addSeq ds

/-- The `start` argument of `np.random.randint` in `sample`:
`pointer - max_horizon` when the ring has wrapped
(`_horizon_length == max_horizon`), else `0`. -/
def DataBuffer.sampleStart {κ α : Type} (b : DataBuffer κ α) : Int :=
  if b.horizon_length = b.max_horizon then
    (b.pointer : Int) - (b.max_horizon : Int)
  else 0

/-- The `end` argument of `np.random.randint` in `sample`:
`pointer - T + 1` (so drawn starts are `≤ pointer - T`). -/
def DataBuffer.sampleEnd {κ α : Type} (b : DataBuffer κ α) (T : Nat) : Int :=
  (b.pointer : Int) - (T : Int) + 1

/-- Entry `xs[t, i]` of `(np.tile(np.arange(T)[:, np.newaxis], B) + x)
% self._horizon_length`: the wrapped time slot visited at window offset
`t` for the draw `x i`. -/
def DataBuffer.xsIdx {κ α : Type} (b : DataBuffer κ α) (x : Int) (t : Nat) : Int :=
  ((t : Int) + x) % (b.horizon_length : Int)

/-- The gathered samples of `DataBuffer.sample` as a flat field map:
`samples[f][t, i] = _buffer[f][xs[t, i], y[i]]` (numpy advanced indexing
with index arrays `xs : (T, B)` and `y : (B,)`, `y` broadcast over `t`).
`x i` is the `i`-th start draw from `randint(start, end, B)`; `y i` is
the `i`-th copy draw from `randint(0, n_copys, B)`. -/
def DataBuffer.sampleAt {κ α : Type} (b : DataBuffer κ α) (x : Nat → Int)
    (y : Nat → Nat) (f : κ) (t i : Nat) : Option α :=
  b.buffer f (b.xsIdx (x i) t).toNat (y i)

/-- The full `[T, B]`-shaped result array for field `f` (outer list:
window offsets `0..T-1`, inner list: batch positions `0..B-1`). -/
def DataBuffer.sampleArr {κ α : Type} (b : DataBuffer κ α) (B T : Nat)
    (x : Nat → Int) (y : Nat → Nat) (f : κ) : List (List (Option α)) :=
  (List.range T).map fun t => (List.range B).map fun i => b.sampleAt x y f t i

/-- The two failure modes of `DataBuffer.sample`: the explicit
`assert T <= self._horizon_length` (insufficient data), and the
`ValueError` `np.random.randint` raises when `low >= high`. -/
inductive SampleError where
  | insufficientData : SampleError
  | emptyRange : SampleError
deriving DecidableEq, Repr

/-- The `DataBuffer.sample` method with its control flow: first the assert, then the
`randint` call, then the pure gather.  Returns the outcome paired with
the post-call buffer state; the method body never assigns to
`self._buffer`, `self._pointer` or `self._horizon_length`, and numpy
advanced indexing copies (never aliases) the selected cells, so the
state component is the unchanged receiver. -/
def DataBuffer.sampleChecked {κ α : Type} (b : DataBuffer κ α) (B T : Nat)
    (x : Nat → Int) (y : Nat → Nat) :
    Except SampleError (κ → Nat → Nat → Option α) × DataBuffer κ α :=
  if T ≤ b.horizon_length then
    if b.sampleStart < b.sampleEnd T then
      (Except.ok (fun f t i => b.sampleAt x y f t i), b)
    else (Except.error SampleError.emptyRange, b)
  else (Except.error SampleError.insufficientData, b)

/-- The `can_sample` property:
`(self._horizon_length - self.time_step) * self.n_copys >= self.batch_size`,
evaluated over Python's signed integers. -/
def DataBuffer.can_sample {κ α : Type} (b : DataBuffer κ α) : Bool :=
  decide (((b.horizon_length : Int) - (b.time_step : Int)) * (b.n_copys : Int)
    ≥ (b.batch_size : Int))

/-! ### Shape-level model of `add`

For the error-handling claims about `add` we track, instead of abstract
cell values, the shape/dtype metadata that numpy row assignment
`self._buffer[k][_k][self._pointer] = _v` actually checks.  Numpy's basic
assignment broadcasts the source array to the target row's shape — it
raises `ValueError` ("could not broadcast input array ...") exactly when
the source shape cannot be broadcast to the target shape, and it casts
between numeric dtypes silently (assignment uses unsafe casting).  An
exception raised inside the per-field loop propagates out of `add`,
leaving `self` with the writes performed so far and with `_pointer` and
`_horizon_length` untouched (they are only updated after the loop). -/

/-- Numpy broadcastability of a source array of shape `src` when
assigned into a fixed target shape `tgt` (`PyArray_AssignArray`
semantics): extra leading source dimensions are permitted only when they
have length `1` (numpy's backwards-compatibility special case strips
them), and each remaining dimension, aligned to the trailing target
dimensions, must equal the target dimension or be `1`. -/
def broadcastable (tgt src : List Nat) : Bool :=
  (src.take (src.length - tgt.length)).all (fun d => d == 1) &&
    (List.zip tgt.reverse src.reverse).all fun p => p.2 == p.1 || p.2 == 1

/-- Shape-level state of a `DataBuffer`: for each flattened field, the
shape and dtype of the original allocation (`np.empty((max_horizon,) +
_v.shape, _v.dtype)`), and which `(field, slot)` cells have been
assigned. -/
structure ShapedBuffer (κ : Type) where
  max_horizon : Nat
  alloc : κ → Option (List Nat × String)
  written : κ → Nat → Bool
  pointer : Nat
  horizon_length : Nat

/-- One iteration of the per-field loop of `add` for field `f` carrying
an incoming array of shape `shape` and dtype `dt`: allocate on first
appearance, then perform the row assignment, which fails exactly when
`shape` is not broadcastable to the allocated row shape (numeric dtype
differences are cast silently). -/
def ShapedBuffer.addOne {κ : Type} [DecidableEq κ] (b : ShapedBuffer κ)
    (f : κ) (shape : List Nat) (dt : String) :
    Except String (ShapedBuffer κ) :=
  match b.alloc f with
  | none =>
      Except.ok { b with
        alloc := fun g => if g = f then some (shape, dt) else b.alloc g
        written := fun g i =>
          if g = f ∧ i = b.pointer then true else b.written g i }
  | some (s0, _) =>
      if broadcastable s0 shape then
        Except.ok { b with
          written := fun g i =>
            if g = f ∧ i = b.pointer then true else b.written g i }
      else Except.error ("could not broadcast input array")

/-- Runs `add` over the ordered list of (field, shape, dtype) triples of one
incoming data dict (Python dicts iterate in insertion order).  Returns
the post-call state together with the exception, if one was raised: on
an exception the state keeps the writes already performed in this call,
and the pointer advance / fill increment after the loop never runs. -/
def ShapedBuffer.addImp {κ : Type} [DecidableEq κ] (b : ShapedBuffer κ) :
    List (κ × List Nat × String) → ShapedBuffer κ × Option String
  | [] =>
      ({ b with
          pointer := (b.pointer + 1) % b.max_horizon
          horizon_length := min (b.horizon_length + 1) b.max_horizon }, none)
  | (f, s, d) :: rest =>
      match b.addOne f s d with
      | Except.ok b' => b'.addImp rest
      | Except.error e => (b, some e)

/-- A fresh shape-level buffer. -/
def ShapedBuffer.init (κ : Type) (max_horizon : Nat) : ShapedBuffer κ :=
  { max_horizon := max_horizon
    alloc := fun _ => none
    written := fun _ _ => false
    pointer := 0
    horizon_length := 0 }

/-! ### Concrete instances used by the claims -/

/-- The four `add` calls of the spec's concrete scenario
(`n_copys=2, batch_size=4, buffer_size=8, time_step=2`): call `j`
writes the distinct marker `10 * j + c` into copy `c` of the single
field. -/
def c4calls : List ((Unit → Bool) × (Unit → Nat → Nat)) :=
  (List.range 4).map fun j => ((fun _ => true), (fun _ c => 10 * j + c))

/-- The buffer of the concrete scenario after its four `add` calls. -/
def c4buf : DataBuffer Unit Nat :=
  (DataBuffer.init Unit Nat 2 4 8 2).addSeq c4calls

/-- A buffer (`n_copys=1, buffer_size=4, time_step=1`) where field `1`
first appears only in the second `add` call (field `0` is present in
both calls). -/
def c10buf : DataBuffer Nat Nat :=
  ((DataBuffer.init Nat Nat 1 1 4 1).add (fun f => f == 0) (fun _ _ => 7)).add
    (fun _ => true) (fun _ _ => 8)

/-- A shape-level buffer whose single field was allocated for arrays of
shape `[2, 3]`. -/
def c8base : ShapedBuffer Nat :=
  ((ShapedBuffer.init Nat 4).addImp [(0, [2, 3], "float32")]).1

/-- A shape-level buffer with two fields allocated for shape `[2]`, one
slot filled. -/
def c9base : ShapedBuffer Nat :=
  ((ShapedBuffer.init Nat 4).addImp
    [(0, [2], "float32"), (1, [2], "float32")]).1

/-- A second `add` call on `c9base` whose first field matches its
allocation but whose second field carries a non-broadcastable shape. -/
def c9res : ShapedBuffer Nat × Option String :=
  c9base.addImp [(0, [2], "float32"), (1, [5, 7], "float32")]

/-! ### Helper lemmas -/

@[simp] lemma add_max_horizon {κ α : Type} (b : DataBuffer κ α)
    (fields : κ → Bool) (vals : κ → Nat → α) :
    (b.add fields vals).max_horizon = b.max_horizon := rfl

@[simp] lemma add_n_copys {κ α : Type} (b : DataBuffer κ α)
    (fields : κ → Bool) (vals : κ → Nat → α) :
    (b.add fields vals).n_copys = b.n_copys := rfl

lemma addSeq_max_horizon {κ α : Type} :
    ∀ (ds : List ((κ → Bool) × (κ → Nat → α))) (b : DataBuffer κ α),
      (b.addSeq ds).max_horizon = b.max_horizon
  | [], _ => rfl
  | _ :: ds, b => addSeq_max_horizon ds _

lemma addSeq_n_copys {κ α : Type} :
    ∀ (ds : List ((κ → Bool) × (κ → Nat → α))) (b : DataBuffer κ α),
      (b.addSeq ds).n_copys = b.n_copys
  | [], _ => rfl
  | _ :: ds, b => addSeq_n_copys ds _

lemma addSeq_pointer {κ α : Type} :
    ∀ (ds : List ((κ → Bool) × (κ → Nat → α))) (b : DataBuffer κ α),
      b.pointer % b.max_horizon = b.pointer →
      (b.addSeq ds).pointer = (b.pointer + ds.length) % b.max_horizon
  | [], b, h => by simpa using h.symm
  | d :: ds, b, h => by
      have ih := addSeq_pointer ds (b.add d.1 d.2)
        (Nat.mod_mod_of_dvd _ dvd_rfl)
      rw [DataBuffer.addSeq, ih]
      show ((b.pointer + 1) % b.max_horizon + ds.length) % b.max_horizon
        = (b.pointer + (d :: ds).length) % b.max_horizon
      rw [Nat.mod_add_mod, List.length_cons]
      congr 1
      omega

lemma addSeq_horizon_length {κ α : Type} :
    ∀ (ds : List ((κ → Bool) × (κ → Nat → α))) (b : DataBuffer κ α),
      b.horizon_length ≤ b.max_horizon →
      (b.addSeq ds).horizon_length = min (b.horizon_length + ds.length) b.max_horizon
  | [], b, h => by
      show b.horizon_length = min (b.horizon_length + [].length) b.max_horizon
      simp only [List.length_nil, Nat.add_zero]
      omega
  | d :: ds, b, h => by
      have ih := addSeq_horizon_length ds (b.add d.1 d.2) (by
        show min (b.horizon_length + 1) b.max_horizon ≤ b.max_horizon
        omega)
      rw [DataBuffer.addSeq, ih]
      show min (min (b.horizon_length + 1) b.max_horizon + ds.length) b.max_horizon
        = min (b.horizon_length + (d :: ds).length) b.max_horizon
      rw [List.length_cons]
      omega

/-- Slots already holding a value stay written across a run of `add`
calls containing a field, and every slot the run's pointer sweeps over
becomes written. -/
lemma addSeq_buffer_some {κ α : Type} (f : κ) :
    ∀ (ds : List ((κ → Bool) × (κ → Nat → α))) (b : DataBuffer κ α),
      b.allocated f = true →
      b.pointer + ds.length ≤ b.max_horizon →
      (∀ d ∈ ds, d.1 f = true) →
      ∀ i c, ((∃ v, b.buffer f i c = some v) ∨
              (b.pointer ≤ i ∧ i < b.pointer + ds.length)) →
        ∃ v, (b.addSeq ds).buffer f i c = some v
  | [], b, _, _, _, i, c, hi => by
      rcases hi with hv | hr
      · exact hv
      · simp only [List.length_nil, Nat.add_zero] at hr
        omega
  | d :: ds, b, halloc, hlen, hall, i, c, hi => by
      have hd : d.1 f = true := hall d (List.mem_cons_self d ds)
      have halloc' : (b.add d.1 d.2).allocated f = true := by
        simp [DataBuffer.add, halloc]
      have hlen' : (b.add d.1 d.2).pointer + ds.length ≤ (b.add d.1 d.2).max_horizon := by
        show (b.pointer + 1) % b.max_horizon + ds.length ≤ b.max_horizon
        have : (b.pointer + 1) % b.max_horizon ≤ b.pointer + 1 := Nat.mod_le _ _
        simp only [List.length_cons] at hlen
        omega
      rw [DataBuffer.addSeq]
      apply addSeq_buffer_some f ds (b.add d.1 d.2) halloc' hlen'
        (fun e he => hall e (List.mem_cons_of_mem d he))
      -- establish the disjunct at the post-`add` state
      by_cases hip : i = b.pointer
      · left
        refine ⟨d.2 f c, ?_⟩
        simp [DataBuffer.add, hd, hip]
      · rcases hi with ⟨v, hv⟩ | hr
        · left
          refine ⟨v, ?_⟩
          simp [DataBuffer.add, hd, hip, halloc, hv]
        · right
          simp only [List.length_cons] at hlen hr
          show (b.pointer + 1) % b.max_horizon ≤ i
            ∧ i < (b.pointer + 1) % b.max_horizon + ds.length
          by_cases hds : ds.length = 0
          · omega
          · have hlt : b.pointer + 1 < b.max_horizon := by omega
            rw [Nat.mod_eq_of_lt hlt]
            omega

/-- After a nonempty run of `add` calls on a fresh buffer, all of which
carry field `f`, every slot `i < run length` of `f` holds a written
value at every copy. -/
lemma init_addSeq_written {κ α : Type} (n bs bufs ts : Nat) (f : κ)
    (ds : List ((κ → Bool) × (κ → Nat → α)))
    (hall : ∀ d ∈ ds, d.1 f = true)
    (hlen : ds.length ≤ (DataBuffer.init κ α n bs bufs ts).max_horizon) :
    ∀ i c, i < ds.length →
      ∃ v, ((DataBuffer.init κ α n bs bufs ts).addSeq ds).buffer f i c = some v := by
  intro i c hi
  match ds, hall, hlen, hi with
  | d :: ds, hall, hlen, hi =>
    have hd : d.1 f = true := hall d (List.mem_cons_self d ds)
    have hmh : (DataBuffer.init κ α n bs bufs ts).max_horizon = bufs / n := rfl
    rw [hmh] at hlen
    have hb1alloc :
        ((DataBuffer.init κ α n bs bufs ts).add d.1 d.2).allocated f = true := by
      simp [DataBuffer.add, hd, DataBuffer.init]
    simp only [List.length_cons] at hlen hi
    rw [DataBuffer.addSeq]
    apply addSeq_buffer_some f ds ((DataBuffer.init κ α n bs bufs ts).add d.1 d.2)
      hb1alloc
    · show 1 % (bufs / n) + ds.length ≤ bufs / n
      have : 1 % (bufs / n) ≤ 1 := Nat.mod_le _ _
      omega
    · exact fun e he => hall e (List.mem_cons_of_mem d he)
    · by_cases hi0 : i = 0
      · left
        refine ⟨d.2 f c, ?_⟩
        simp [DataBuffer.add, hd, hi0, DataBuffer.init]
      · right
        show 1 % (bufs / n) ≤ i ∧ i < 1 % (bufs / n) + ds.length
        by_cases hm1 : bufs / n = 1
        · omega
        · rw [Nat.mod_eq_of_lt (by omega : 1 < bufs / n)]
          omega

/-! ### Claims -/

/-- C3: every `add` advances the shared write pointer by exactly one
modulo `max_horizon` and increments the fill counter by one capped at
`max_horizon`; after exactly `max_horizon` `add` calls on a fresh buffer
the pointer equals `0` again, and the next `add` writes into slot `0`,
overwriting the oldest data. -/
theorem C3_add_pointer_ring_wrap {κ α : Type} (b : DataBuffer κ α)
    (fields : κ → Bool) (vals : κ → Nat → α)
    (n bs bufs ts : Nat) (ds : List ((κ → Bool) × (κ → Nat → α)))
    (hlen : ds.length = (DataBuffer.init κ α n bs bufs ts).max_horizon) :
    ((b.add fields vals).pointer = (b.pointer + 1) % b.max_horizon
      ∧ (b.add fields vals).horizon_length
          = min (b.horizon_length + 1) b.max_horizon)
    ∧ ((DataBuffer.init κ α n bs bufs ts).addSeq ds).pointer = 0
    ∧ (∀ f c, fields f = true →
        (((DataBuffer.init κ α n bs bufs ts).addSeq ds).add fields vals).buffer f 0 c
          = some (vals f c)) := by
  have hptr : ((DataBuffer.init κ α n bs bufs ts).addSeq ds).pointer = 0 := by
    rw [addSeq_pointer ds _ (by simp [DataBuffer.init])]
    simp [DataBuffer.init, hlen]
  refine ⟨⟨rfl, rfl⟩, hptr, ?_⟩
  intro f c hf
  simp [DataBuffer.add, hf, hptr]

/-- Witness for C3 at `n_copys=1, batch_size=1, buffer_size=4,
time_step=1` and four `add` calls. -/
theorem C3_witness :
    ((DataBuffer.init Unit Nat 1 1 4 1).addSeq
        (List.replicate 4 ((fun _ => true), (fun _ _ => 0)))).pointer = 0
    ∧ (((DataBuffer.init Unit Nat 1 1 4 1).addSeq
        (List.replicate 4 ((fun _ => true), (fun _ _ => 0)))).add
          (fun _ => true) (fun _ _ => 5)).buffer () 0 0 = some 5 := by
  have h := C3_add_pointer_ring_wrap (DataBuffer.init Unit Nat 1 1 4 1)
    (fun _ => true) (fun _ _ => 5) 1 1 4 1
    (List.replicate 4 ((fun _ => true), (fun _ _ => 0))) (by rfl)
  exact ⟨h.2.1, h.2.2 () 0 rfl⟩

/-- C5: `sample` raises the insufficient-data error (the
`assert T <= self._horizon_length`) exactly when the effective window
length `T` exceeds the current fill counter; with `T` not exceeding the
fill counter that error is never raised. -/
theorem C5_insufficient_iff {κ α : Type} (b : DataBuffer κ α) (B T : Nat)
    (x : Nat → Int) (y : Nat → Nat) :
    (b.sampleChecked B T x y).1 = Except.error SampleError.insufficientData
      ↔ b.horizon_length < T := by
  unfold DataBuffer.sampleChecked
  by_cases h : T ≤ b.horizon_length
  · by_cases h2 : b.sampleStart < b.sampleEnd T <;> simp [h, h2]
  · simp only [if_neg h]
    constructor
    · intro _
      omega
    · intro _
      trivial

/-- C6: `sample` never mutates buffer state — the post-call state equals
the receiver, and two consecutive `sample` calls with the random source
reset to the same draws return identical results. -/
theorem C6_sample_readonly {κ α : Type} (b : DataBuffer κ α) (B T : Nat)
    (x : Nat → Int) (y : Nat → Nat) :
    (b.sampleChecked B T x y).2 = b
    ∧ (b.sampleChecked B T x y).1
        = ((b.sampleChecked B T x y).2.sampleChecked B T x y).1 := by
  have hstate : (b.sampleChecked B T x y).2 = b := by
    unfold DataBuffer.sampleChecked
    by_cases h : T ≤ b.horizon_length
    · by_cases h2 : b.sampleStart < b.sampleEnd T <;> simp [h, h2]
    · simp [h]
  exact ⟨hstate, by rw [hstate]⟩

/-- C7: `can_sample` is true exactly when
`(fill_count - time_step) * n_copys >= batch_size` (over signed
integers), and in particular false whenever `fill_count < time_step`. -/
theorem C7_can_sample_iff {κ α : Type} (b : DataBuffer κ α) :
    (b.can_sample = true ↔
      ((b.horizon_length : Int) - (b.time_step : Int)) * (b.n_copys : Int)
        ≥ (b.batch_size : Int))
    ∧ (1 ≤ b.n_copys → b.horizon_length < b.time_step →
        b.can_sample = false) := by
  constructor
  · exact decide_eq_true_iff
  · intro hn hlt
    simp only [DataBuffer.can_sample, decide_eq_false_iff_not, not_le]
    have h1 : ((b.horizon_length : Int) - (b.time_step : Int)) ≤ -1 := by
      omega
    have h2 : (1 : Int) ≤ (b.n_copys : Int) := by exact_mod_cast hn
    nlinarith [h1, h2]

/-- Witness for C7: a fresh buffer with `n_copys=1, time_step=1` has
`fill_count = 0 < time_step` and cannot sample. -/
theorem C7_witness : (DataBuffer.init Unit Nat 1 1 4 1).can_sample = false :=
  (C7_can_sample_iff (DataBuffer.init Unit Nat 1 1 4 1)).2 (by decide) (by decide)

/-- C1: the `B` start indices are drawn from `randint(start, end)` whose
support is exactly the claim's inclusive range — `pointer - max_horizon`
to `pointer - T` when the ring has wrapped, `0` to `pointer - T`
otherwise; each sample gathers `T` consecutive time slots wrapping
modulo the fill length; and every field of every key is gathered at the
identical `(start slot, copy)` index pair, preserving cross-field
temporal alignment. -/
theorem C1_sample_window_alignment {κ α : Type} (b : DataBuffer κ α)
    (T : Nat) (x : Nat → Int) (y : Nat → Nat) :
    (∀ r : Int,
      (b.sampleStart ≤ r ∧ r < b.sampleEnd T) ↔
        (if b.horizon_length = b.max_horizon then
            (b.pointer : Int) - (b.max_horizon : Int) ≤ r
              ∧ r ≤ (b.pointer : Int) - (T : Int)
          else 0 ≤ r ∧ r ≤ (b.pointer : Int) - (T : Int)))
    ∧ (∀ (x0 : Int) (t : Nat),
        b.xsIdx x0 0 = x0 % (b.horizon_length : Int)
          ∧ b.xsIdx x0 (t + 1) = (b.xsIdx x0 t + 1) % (b.horizon_length : Int))
    ∧ (∀ t i, ∃ slot copy, ∀ f : κ,
        b.sampleAt x y f t i = b.buffer f slot copy) := by
  refine ⟨?_, ?_, ?_⟩
  · intro r
    unfold DataBuffer.sampleStart DataBuffer.sampleEnd
    by_cases h : b.horizon_length = b.max_horizon <;> simp [h] <;> omega
  · intro x0 t
    constructor
    · unfold DataBuffer.xsIdx
      norm_num
    · unfold DataBuffer.xsIdx
      rw [Int.emod_add_emod]
      congr 1
      push_cast
      ring
  · intro t i
    exact ⟨(b.xsIdx (x i) t).toNat, y i, fun f => rfl⟩

/-- C2: after any number `1 ≤ k ≤ max_horizon` of `add` calls on a fresh
buffer, all carrying a field `f`, a `sample` with window length `1`
returns only values from slots already written by `add`: for every start
draw in `randint`'s range and every copy draw, the gathered cell is a
written (`some`) value, never an uninitialized one. -/
theorem C2_sample_only_written {κ α : Type} (n bs bufs ts : Nat) (f : κ)
    (ds : List ((κ → Bool) × (κ → Nat → α)))
    (hall : ∀ d ∈ ds, d.1 f = true)
    (hne : 1 ≤ ds.length)
    (hlen : ds.length ≤ (DataBuffer.init κ α n bs bufs ts).max_horizon)
    (x : Nat → Int) (y : Nat → Nat) (t i : Nat) (ht : t < 1)
    (hx1 : ((DataBuffer.init κ α n bs bufs ts).addSeq ds).sampleStart ≤ x i)
    (hx2 : x i < ((DataBuffer.init κ α n bs bufs ts).addSeq ds).sampleEnd 1)
    (hy : y i < ((DataBuffer.init κ α n bs bufs ts).addSeq ds).n_copys) :
    ∃ v, ((DataBuffer.init κ α n bs bufs ts).addSeq ds).sampleAt x y f t i
      = some v := by
  have hh : ((DataBuffer.init κ α n bs bufs ts).addSeq ds).horizon_length
      = ds.length := by
    rw [addSeq_horizon_length ds _ (by simp [DataBuffer.init])]
    have h0 : (DataBuffer.init κ α n bs bufs ts).horizon_length = 0 := rfl
    omega
  have hne' : ((ds.length : Int)) ≠ 0 := by
    exact_mod_cast Nat.one_le_iff_ne_zero.mp hne
  have hpos' : (0 : Int) < (ds.length : Int) := by exact_mod_cast hne
  have hmod1 : (0 : Int) ≤ ((t : Int) + x i) % (ds.length : Int) :=
    Int.emod_nonneg _ hne'
  have hmod2 : ((t : Int) + x i) % (ds.length : Int) < (ds.length : Int) :=
    Int.emod_lt_of_pos _ hpos'
  show ∃ v, ((DataBuffer.init κ α n bs bufs ts).addSeq ds).buffer f
    ((((t : Int) + x i)
      % ((((DataBuffer.init κ α n bs bufs ts).addSeq ds).horizon_length : Nat)
        : Int)).toNat) (y i) = some v
  rw [hh]
  exact init_addSeq_written n bs bufs ts f ds hall hlen _ (y i) (by omega)

/-- Witness for C2 at `n_copys=1, batch_size=1, buffer_size=4,
time_step=1` after a single `add`, with draws `x = 0`, `y = 0`. -/
theorem C2_witness :
    ∃ v, ((DataBuffer.init Unit Nat 1 1 4 1).addSeq
      [((fun _ => true), (fun _ _ => 3))]).sampleAt
        (fun _ => 0) (fun _ => 0) () 0 0 = some v :=
  C2_sample_only_written 1 1 4 1 ()
    [((fun _ => true), (fun _ _ => 3))]
    (by intro d hd; rw [List.mem_singleton] at hd; subst hd; rfl)
    (by decide) (by decide)
    (fun _ => 0) (fun _ => 0) 0 0 (by decide)
    (by decide) (by decide) (by decide)

/-- In the concrete scenario, slot `j < 4` of the stored field holds the
marker written by the `j`-th `add` call at every copy. -/
lemma c4buf_buffer : ∀ j, j < 4 → ∀ c, c4buf.buffer () j c = some (10 * j + c) := by
  intro j hj c
  interval_cases j <;> rfl

/-- C4: every sampled field array has shape `[T, B, *]` (outer length
`T`, each row length `B`); in the concrete scenario
`n_copys=2, batch_size=4, buffer_size=8, time_step=2` (`max_horizon=4`),
after 4 `add` calls `sample()` returns arrays shaped `[2, 4]` whose
entries all carry the marker `10 * slot + copy` of one of the 4 stored
slots. -/
theorem C4_sample_shape {κ α : Type} (b : DataBuffer κ α) (B T : Nat)
    (x : Nat → Int) (y : Nat → Nat) (f : κ)
    (x4 : Nat → Int) (y4 : Nat → Nat)
    (hx4 : ∀ i, c4buf.sampleStart ≤ x4 i ∧ x4 i < c4buf.sampleEnd 2)
    (hy4 : ∀ i, y4 i < 2) :
    ((b.sampleArr B T x y f).length = T
      ∧ ∀ row ∈ b.sampleArr B T x y f, row.length = B)
    ∧ (c4buf.max_horizon = 4
      ∧ (c4buf.sampleArr 4 2 x4 y4 ()).length = 2
      ∧ (∀ row ∈ c4buf.sampleArr 4 2 x4 y4 (), row.length = 4)
      ∧ ∀ t i, ∃ j < 4, ∃ c < 2,
          c4buf.sampleAt x4 y4 () t i = some (10 * j + c)) := by
  refine ⟨⟨?_, ?_⟩, rfl, ?_, ?_, ?_⟩
  · simp [DataBuffer.sampleArr]
  · intro row hrow
    simp only [DataBuffer.sampleArr, List.mem_map, List.mem_range] at hrow
    obtain ⟨t, -, rfl⟩ := hrow
    simp
  · simp [DataBuffer.sampleArr]
  · intro row hrow
    simp only [DataBuffer.sampleArr, List.mem_map, List.mem_range] at hrow
    obtain ⟨t, -, rfl⟩ := hrow
    simp
  · intro t i
    have h1 : (0 : Int) ≤ ((t : Int) + x4 i) % (4 : Int) :=
      Int.emod_nonneg _ (by norm_num)
    have h2 : ((t : Int) + x4 i) % (4 : Int) < 4 :=
      Int.emod_lt_of_pos _ (by norm_num)
    show ∃ j < 4, ∃ c < 2,
      c4buf.buffer () ((((t : Int) + x4 i) % (4 : Int)).toNat) (y4 i)
        = some (10 * j + c)
    exact ⟨(((t : Int) + x4 i) % (4 : Int)).toNat, by omega, y4 i, hy4 i,
      c4buf_buffer _ (by omega) (y4 i)⟩

/-- Witness for C4 with the concrete draws `x = -2`, `y = 0`. -/
theorem C4_witness :
    ∃ j < 4, ∃ c < 2,
      c4buf.sampleAt (fun _ => -2) (fun _ => 0) () 0 0 = some (10 * j + c) :=
  (C4_sample_shape c4buf 1 1 (fun _ => 0) (fun _ => 0) ()
    (fun _ => -2) (fun _ => 0)
    (fun _ => ⟨by change c4buf.sampleStart ≤ -2; decide,
      by change (-2 : Int) < c4buf.sampleEnd 2; decide⟩)
    (fun _ => by change (0 : Nat) < 2; decide)).2.2.2.2 0 0

/-- C8 counterexample: mismatched incoming shapes (`[1, 3]`, and the
higher-rank `[1, 2, 3]`, against the original `[2, 3]` allocation) are
silently accepted by the row assignment because numpy broadcasts them
(stripping the leading length-1 dimension in the second case) — the
`add` calls raise no error, contradicting fail-fast on every shape
mismatch. -/
theorem C8_counterexample :
    c8base.alloc 0 = some ([2, 3], "float32")
    ∧ ([1, 3] : List Nat) ≠ [2, 3]
    ∧ (c8base.addImp [(0, [1, 3], "float32")]).2 = none
    ∧ ([1, 2, 3] : List Nat) ≠ [2, 3]
    ∧ (c8base.addImp [(0, [1, 2, 3], "float32")]).2 = none :=
  ⟨rfl, by decide, rfl, by decide, rfl⟩

/-- C8 amended: a write into an already-allocated field raises exactly
when the incoming shape is not assignment-broadcastable to the original
allocation's shape (extra leading length-1 dimensions stripped, trailing
dimensions equal to the target's or `1`); broadcast-compatible shape
mismatches (and numeric dtype differences) are silently accepted. -/
theorem C8_amended_raises_iff {κ : Type} [DecidableEq κ]
    (b : ShapedBuffer κ) (f : κ) (s : List Nat) (d : String) :
    (b.addImp [(f, s, d)]).2.isSome = true ↔
      ∃ s0 d0, b.alloc f = some (s0, d0) ∧ broadcastable s0 s = false := by
  cases halloc : b.alloc f with
  | none =>
      simp [ShapedBuffer.addImp, ShapedBuffer.addOne, halloc]
  | some p =>
      cases p with
      | mk s0 d0 =>
        by_cases hbc : broadcastable s0 s
        · simp [ShapedBuffer.addImp, ShapedBuffer.addOne, halloc, hbc]
        · simp only [Bool.not_eq_true] at hbc
          simp [ShapedBuffer.addImp, ShapedBuffer.addOne, halloc, hbc]

/-- C9: when the row assignment raises partway through the per-field
loop of `add`, the fields processed earlier in that call have already
been written at the current pointer slot, while the pointer advance and
fill increment after the loop never execute — leaving bookkeeping
inconsistent with the partial writes, so the caller must treat the error
as fatal to the call. -/
theorem C9_partial_write_stale_pointer :
    (c9res.2).isSome = true
    ∧ c9res.1.written 0 1 = true
    ∧ c9res.1.written 1 1 = false
    ∧ c9res.1.pointer = c9base.pointer
    ∧ c9res.1.horizon_length = c9base.horizon_length
    ∧ c9base.pointer = 1 ∧ c9base.horizon_length = 1 :=
  ⟨rfl, rfl, rfl, rfl, rfl, rfl, rfl⟩

/-- C10: a field first appearing in an `add` call after earlier calls is
allocated uninitialized (`np.empty`) with only the current pointer slot
written; an earlier slot inside the valid sampling range still holds no
written value, and a `sample` draw selecting it returns that
uninitialized cell. -/
theorem C10_late_field_uninitialized :
    c10buf.allocated 1 = true
    ∧ c10buf.buffer 1 1 0 = some 8
    ∧ c10buf.buffer 1 0 0 = none
    ∧ c10buf.sampleStart ≤ 0 ∧ (0 : Int) < c10buf.sampleEnd 1
    ∧ c10buf.sampleAt (fun _ => 0) (fun _ => 0) 1 0 0 = none :=
  ⟨rfl, rfl, rfl, by decide, by decide, rfl⟩

/-- Witness for C1 on the concrete scenario buffer: a sampled cell of
window offset `0`, batch position `0` originates from one `(slot, copy)`
pair shared by every field. -/
theorem C1_witness :
    ∃ slot copy, ∀ f : Unit,
      c4buf.sampleAt (fun _ => -2) (fun _ => 0) f 0 0
        = c4buf.buffer f slot copy :=
  (C1_sample_window_alignment c4buf 2 (fun _ => -2) (fun _ => 0)).2.2 0 0

/-- Witness for C5: on a fresh buffer (`fill = 0`) a window of length 1
raises the insufficient-data assertion. -/
theorem C5_witness :
    ((DataBuffer.init Unit Nat 1 1 4 1).sampleChecked 1 1
      (fun _ => 0) (fun _ => 0)).1
      = Except.error SampleError.insufficientData :=
  (C5_insufficient_iff (DataBuffer.init Unit Nat 1 1 4 1) 1 1
    (fun _ => 0) (fun _ => 0)).mpr (by decide)

/-- Witness for C6 on a concrete buffer and concrete draws. -/
theorem C6_witness :
    (c4buf.sampleChecked 4 2 (fun _ => -2) (fun _ => 0)).2 = c4buf :=
  (C6_sample_readonly c4buf 4 2 (fun _ => -2) (fun _ => 0)).1

/-- Witness for the amended C8: writing a `[5, 7]`-shaped array into a
field allocated for shape `[2]` raises. -/
theorem C8_amended_witness :
    (c9base.addImp [(1, [5, 7], ("float32"))]).2.isSome = true :=
  (C8_amended_raises_iff c9base 1 [5, 7] ("float32")).mpr
    ⟨[2], ("float32"), rfl, by decide⟩

end RLs
